import Mathlib

/-!
Verification development for the Biosurf network-transport core
(`src/dns.rs` and `src/connection_pool.rs`).

The Rust source is shallowly embedded:
* byte buffers are `List Nat` whose elements are bytes (`< 256`);
* Rust slice indexing `data[i]`, which panics when out of bounds, is
  modelled by `getByte`, which yields the distinguished outcome
  `ParseResult.panic` when `i` is out of range;
* `Result::Err(InvalidData ...)` (the protocol error) is `ParseResult.err`;
* the recursive name decompressor is given a fuel argument; running out of
  fuel (`ParseResult.diverge`) models non-termination of the Rust code,
  which has no bound of its own;
* `Instant` / `SystemTime` values are natural numbers (`now - earlier` is
  the truncated subtraction, matching the always-nonnegative durations that
  occur at runtime);
* `HashMap` is an association list whose operations touch the first
  matching key.
-/

namespace Biosurf

/-! ## Outcomes of parsing

`ok` and `err` are the two sides of the Rust `Result`; `panic` records an
out-of-bounds slice index (a Rust panic, not a returned error); `diverge`
records that the fuel ran out, i.e. the Rust code would still be running. -/

inductive ParseResult (α : Type) where
  | ok (a : α)
  | err
  | panic
  | diverge
deriving DecidableEq, Repr

def ParseResult.bind {α β : Type} : ParseResult α → (α → ParseResult β) → ParseResult β
  | .ok a, f => f a
  | .err, _ => .err
  | .panic, _ => .panic
  | .diverge, _ => .diverge

instance : Monad ParseResult where
  pure := ParseResult.ok
  bind := ParseResult.bind

/-- Rust `data[i]` on a `&[u8]`: the byte when `i` is in bounds, a panic
otherwise. -/
def getByte (data : List Nat) (i : Nat) : ParseResult Nat :=
  match data[i]? with
  | some b => .ok b
  | none => .panic

/-- Rust `u16::from_be_bytes([data[i], data[i+1]])` with panicking reads. -/
def readU16 (data : List Nat) (i : Nat) : ParseResult Nat := do
  let a ← getByte data i
  let b ← getByte data (i + 1)
  pure (a * 256 + b)

/-- Rust `u32::from_be_bytes` over `data[i..i+4]` with panicking reads. -/
def readU32 (data : List Nat) (i : Nat) : ParseResult Nat := do
  let a ← getByte data i
  let b ← getByte data (i + 1)
  let c ← getByte data (i + 2)
  let d ← getByte data (i + 3)
  pure (((a * 256 + b) * 256 + c) * 256 + d)

/-! ## DNS data model (`src/dns.rs`) -/

inductive DnsRecordType where
  | A
  | AAAA
  | CNAME
  | NS
  | MX
deriving DecidableEq, Repr

def DnsRecordType.to_u16 : DnsRecordType → Nat
  | .A => 1
  | .AAAA => 28
  | .CNAME => 5
  | .NS => 2
  | .MX => 15

def DnsRecordType.from_u16 (value : Nat) : Option DnsRecordType :=
  match value with
  | 1 => some .A
  | 28 => some .AAAA
  | 5 => some .CNAME
  | 2 => some .NS
  | 15 => some .MX
  | _ => none

/-- `IpAddr`: a v4 address carries its four octets, a v6 address its eight
16-bit groups (the value Rust obtains by parsing the formatted string). -/
inductive IpAddr where
  | v4 (a b c d : Nat)
  | v6 (groups : List Nat)
deriving DecidableEq, Repr

inductive DnsRecordData where
  | A (ip : IpAddr)
  | AAAA (ip : IpAddr)
  | CNAME (name : String)
  | NS (name : String)
  | MX (preference : Nat) (exchange : String)
deriving DecidableEq, Repr

structure DnsRecord where
  name : String
  record_type : DnsRecordType
  ttl : Nat
  data : DnsRecordData
deriving DecidableEq, Repr

structure DnsQuestion where
  name : String
  record_type : DnsRecordType
  class' : Nat
deriving DecidableEq, Repr

structure DnsResponse where
  id : Nat
  qr : Bool
  opcode : Nat
  aa : Bool
  tc : Bool
  rd : Bool
  ra : Bool
  rcode : Nat
  questions : List DnsQuestion
  answers : List DnsRecord
  authority : List DnsRecord
  additional : List DnsRecord
deriving DecidableEq, Repr

/-- `String::from_utf8_lossy` restricted to the byte range; each byte becomes
one character (the claims below never depend on multi-byte sequences). -/
def bytesToString (bs : List Nat) : String :=
  String.mk (bs.map (fun b => Char.ofNat (b % 256)))

/-! ## Name decompression (`DnsResolver::parse_dns_name`, dns.rs:390-428)

The Rust `loop` plus its recursive pointer call become one fuel-indexed
recursion: every loop iteration and every pointer jump consumes one unit of
fuel, and `diverge` reports exhaustion.  The Rust code reads
`data[current_offset]` (panic when out of range), follows a pointer when the
top two bits are set (reading `data[current_offset+1]`, again panicking when
out of range, and recursing with a fresh accumulator that is spliced in
without a separating dot), stops at a zero byte, and otherwise consumes a
label, explicitly rejecting a label that runs past the buffer end. -/

def parseNameLoop (data : List Nat) : Nat → Nat → String → ParseResult (String × Nat)
  | 0, _, _ => .diverge
  | fuel + 1, offset, name =>
    ParseResult.bind (getByte data offset) (fun len =>
      if len &&& 0xC0 == 0xC0 then
        ParseResult.bind (getByte data (offset + 1)) (fun lo =>
          ParseResult.bind (parseNameLoop data fuel (((len &&& 0x3F) <<< 8) ||| lo) "")
            (fun pn => .ok (name ++ pn.1, offset + 2)))
      else if len == 0 then
        .ok (name, offset + 1)
      else if offset + 1 + len > data.length then
        .err
      else
        parseNameLoop data fuel (offset + 1 + len)
          (let label := bytesToString ((data.drop (offset + 1)).take len)
           if name.isEmpty then label else name ++ "." ++ label))

def parse_dns_name (fuel : Nat) (data : List Nat) (offset : Nat) : ParseResult (String × Nat) :=
  parseNameLoop data fuel offset ""

/-! ## Record parsing (`DnsResolver::parse_records`, dns.rs:294-388) -/

/-- One iteration of the `parse_records` loop: name, fixed 10-byte header
(type, class, ttl, rdlength, all read with panicking indexing), then the
type-specific payload; finally the offset advances by `rdlength`. -/
def parseRecord (fuel : Nat) (data : List Nat) (offset : Nat) :
    ParseResult (DnsRecord × Nat) := do
  let (name, o1) ← parse_dns_name fuel data offset
  let record_type ← readU16 data o1
  let _class ← readU16 data (o1 + 2)
  let ttl ← readU32 data (o1 + 4)
  let rdlength ← readU16 data (o1 + 8)
  let o2 := o1 + 10
  let rec' ←
    match DnsRecordType.from_u16 record_type with
    | some .A =>
      if rdlength ≠ 4 then .err
      else do
        let a ← getByte data o2
        let b ← getByte data (o2 + 1)
        let c ← getByte data (o2 + 2)
        let d ← getByte data (o2 + 3)
        pure (DnsRecord.mk name .A ttl (.A (.v4 a b c d)))
    | some .AAAA =>
      if rdlength ≠ 16 then .err
      else do
        let g0 ← readU16 data o2
        let g1 ← readU16 data (o2 + 2)
        let g2 ← readU16 data (o2 + 4)
        let g3 ← readU16 data (o2 + 6)
        let g4 ← readU16 data (o2 + 8)
        let g5 ← readU16 data (o2 + 10)
        let g6 ← readU16 data (o2 + 12)
        let g7 ← readU16 data (o2 + 14)
        pure (DnsRecord.mk name .AAAA ttl (.AAAA (.v6 [g0, g1, g2, g3, g4, g5, g6, g7])))
    | some .CNAME => do
      let (cname, _) ← parse_dns_name fuel data o2
      pure (DnsRecord.mk name .CNAME ttl (.CNAME cname))
    | some .NS => do
      let (ns_name, _) ← parse_dns_name fuel data o2
      pure (DnsRecord.mk name .NS ttl (.NS ns_name))
    | some .MX => do
      let preference ← readU16 data o2
      let (exchange, _) ← parse_dns_name fuel data (o2 + 2)
      pure (DnsRecord.mk name .MX ttl (.MX preference exchange))
    | none => .err
  pure (rec', o2 + rdlength)

def parse_records (fuel : Nat) (data : List Nat) : Nat → Nat → ParseResult (List DnsRecord × Nat)
  | offset, 0 => .ok ([], offset)
  | offset, count + 1 =>
    ParseResult.bind (parseRecord fuel data offset) (fun rp =>
      ParseResult.bind (parse_records fuel data rp.2 count) (fun rest =>
        .ok (rp.1 :: rest.1, rest.2)))

/-- The question-section loop of `parse_response` (dns.rs:253-267): name,
then type and class both read with panicking indexing, then the type code is
checked against the closed enumeration. -/
def parseQuestions (fuel : Nat) (data : List Nat) : Nat → Nat → ParseResult (List DnsQuestion × Nat)
  | offset, 0 => .ok ([], offset)
  | offset, count + 1 => do
    let (name, o1) ← parse_dns_name fuel data offset
    let record_type ← readU16 data o1
    let class' ← readU16 data (o1 + 2)
    match DnsRecordType.from_u16 record_type with
    | none => .err
    | some t =>
      ParseResult.bind (parseQuestions fuel data (o1 + 4) count) (fun rest =>
        .ok (DnsQuestion.mk name t class' :: rest.1, rest.2))

/-- `DnsResolver::parse_response` (dns.rs:222-292). -/
def parse_response (fuel : Nat) (data : List Nat) : ParseResult DnsResponse :=
  if data.length < 12 then .err
  else do
    let id ← readU16 data 0
    let flags ← readU16 data 2
    let qr := decide ((flags &&& 0x8000) ≠ 0)
    let opcode := (flags &&& 0x7800) >>> 11
    let aa := decide ((flags &&& 0x0400) ≠ 0)
    let tc := decide ((flags &&& 0x0200) ≠ 0)
    let rd := decide ((flags &&& 0x0100) ≠ 0)
    let ra := decide ((flags &&& 0x0080) ≠ 0)
    let rcode := flags &&& 0x000F
    let qdcount ← readU16 data 4
    let ancount ← readU16 data 6
    let nscount ← readU16 data 8
    let arcount ← readU16 data 10
    let (questions, o1) ← parseQuestions fuel data 12 qdcount
    let (answers, o2) ← parse_records fuel data o1 ancount
    let (authority, o3) ← parse_records fuel data o2 nscount
    let (additional, _) ← parse_records fuel data o3 arcount
    pure (DnsResponse.mk id qr opcode aa tc rd ra rcode questions answers authority additional)

/-! ## Claims about the wire decoder -/

/-- A single resource record on the wire: root name (one zero byte), fixed
class 1 and ttl 60, then symbolic type code, rdlength, and payload bytes. -/
def rrBuf (tyHi tyLo rdHi rdLo : Nat) (payload : List Nat) : List Nat :=
  0 :: tyHi :: tyLo :: 0 :: 1 :: 0 :: 0 :: 0 :: 60 :: rdHi :: rdLo :: payload

/-! ## Resolver cache and query (`DnsResolver::query` / `resolve_ip`,
dns.rs:110-175)

The socket round trip is abstracted as a `wire` oracle: the decoded reply the
code would obtain from send/recv/parse, or the error that leg produced.
Everything after the cache check — rcode handling, filtering, the not-found
check, TTL computation and cache insertion — is embedded directly.  `sent`
counts datagrams put on the wire by the call. -/

inductive QueryError where
  | serverError (rcode : Nat)
  | notFound
  | protocolError
  | ioError
deriving DecidableEq, Repr

/-- The `{:?}` rendering of a record type used in the cache key. -/
def DnsRecordType.debugStr : DnsRecordType → String
  | .A => "A"
  | .AAAA => "AAAA"
  | .CNAME => "CNAME"
  | .NS => "NS"
  | .MX => "MX"

/-- `format!("{}:{:?}", domain, record_type)`. -/
def cacheKey (domain : String) (ty : DnsRecordType) : String :=
  domain ++ ":" ++ ty.debugStr

structure DnsCacheEntry where
  records : List DnsRecord
  expires_at : Nat
deriving DecidableEq, Repr

abbrev Cache := List (String × DnsCacheEntry)

def cacheLookup (c : Cache) (k : String) : Option DnsCacheEntry :=
  (c.find? (fun p => p.1 == k)).map (fun p => p.2)

/-- `HashMap::insert`: replace the entry of an existing key, else add one. -/
def cacheInsert : Cache → String → DnsCacheEntry → Cache
  | [], k, v => [(k, v)]
  | p :: c, k, v => if p.1 == k then (k, v) :: c else p :: cacheInsert c k v

/-- `records.iter().map(|r| r.ttl).min().unwrap_or(300)`. -/
def min_ttl (records : List DnsRecord) : Nat :=
  ((records.map (fun r => r.ttl)).min?).getD 300

structure QueryOutcome where
  result : Except QueryError (List DnsRecord)
  cache : Cache
  sent : Nat

/-- The cache-miss leg of `query`: one datagram is sent; the decoded reply is
checked for a non-zero rcode, filtered to the requested type, checked for
emptiness, and cached under `now + min_ttl`. -/
def queryMiss (c : Cache) (now : Nat) (key : String) (ty : DnsRecordType)
    (wire : Except QueryError DnsResponse) : QueryOutcome :=
  match wire with
  | .error e => ⟨.error e, c, 1⟩
  | .ok resp =>
    if resp.rcode ≠ 0 then ⟨.error (.serverError resp.rcode), c, 1⟩
    else
      let records := resp.answers.filter (fun r => r.record_type == ty)
      if records.isEmpty then ⟨.error .notFound, c, 1⟩
      else ⟨.ok records, cacheInsert c key ⟨records, now + min_ttl records⟩, 1⟩

/-- `DnsResolver::query` (dns.rs:110-157): a live cache entry (strictly
before its expiry) is returned with no wire traffic; otherwise the miss leg
runs. -/
def query (c : Cache) (now : Nat) (domain : String) (ty : DnsRecordType)
    (wire : Except QueryError DnsResponse) : QueryOutcome :=
  match cacheLookup c (cacheKey domain ty) with
  | some entry =>
    if now < entry.expires_at then ⟨.ok entry.records, c, 0⟩
    else queryMiss c now (cacheKey domain ty) ty wire
  | none => queryMiss c now (cacheKey domain ty) ty wire

/-- `DnsResolver::resolve_ip` (dns.rs:159-175).  `records[0]` on an empty
list would be a Rust panic, modelled as `none` in the first component (the
`query` model never produces an empty success, so it is unreachable). -/
def resolve_ip (c : Cache) (now : Nat) (domain : String)
    (wireA wireAAAA : Except QueryError DnsResponse) :
    Option (Except QueryError IpAddr) × Cache :=
  let r1 := query c now domain .A wireA
  let fallbackAAAA : Cache → Option (Except QueryError IpAddr) × Cache := fun c1 =>
    let r2 := query c1 now domain .AAAA wireAAAA
    match r2.result with
    | .ok [] => (none, r2.cache)
    | .ok (r :: _) =>
      match r.data with
      | .AAAA ip => (some (.ok ip), r2.cache)
      | _ => (some (.error .notFound), r2.cache)
    | .error _ => (some (.error .notFound), r2.cache)
  match r1.result with
  | .ok [] => (none, r1.cache)
  | .ok (r :: _) =>
    match r.data with
    | .A ip => (some (.ok ip), r1.cache)
    | _ => fallbackAAAA r1.cache
  | .error _ => fallbackAAAA r1.cache

/-- Type/data coherence of a record, as guaranteed for every record built by
`parse_records`: an `A`-typed record carries `A` data, an `AAAA`-typed record
carries `AAAA` data. -/
def wfRecord (r : DnsRecord) : Prop :=
  (r.record_type = .A → ∃ ip, r.data = .A ip) ∧
  (r.record_type = .AAAA → ∃ ip, r.data = .AAAA ip)

/-- A wire oracle is well-formed when every answer record of a decoded reply
is type/data coherent. -/
def wfWire (w : Except QueryError DnsResponse) : Prop :=
  ∀ resp, w = .ok resp → ∀ r ∈ resp.answers, wfRecord r

/-! ## Connection pool (`src/connection_pool.rs`)

The pool's lock-protected state (`ConnectionPoolInner`) is embedded directly;
each lock-holding section of the Rust code becomes one state-transition
function, so "quiescent point" in the claims means "between these
transitions".  `HttpStream` values are identified by an opaque numeric id. -/

structure ConnectionKey where
  scheme : String
  host : String
  port : Nat
deriving DecidableEq, Repr

structure ConnectionPoolEntry where
  stream : Nat
  created_at : Nat
  last_used : Nat
  in_use : Bool
deriving DecidableEq, Repr

abbrev ConnTable := List (ConnectionKey × List ConnectionPoolEntry)

structure ConnectionPoolInner where
  connections : ConnTable
  idle_timeout : Nat
  max_connections : Nat
  total_connections : Nat
deriving DecidableEq, Repr

def sumLen (m : ConnTable) : Nat :=
  (m.map (fun p => p.2.length)).sum

/-- The pool-state invariant of the claims: the counter equals the sum of the
per-key entry-list lengths. -/
def poolInvariant (s : ConnectionPoolInner) : Prop :=
  s.total_connections = sumLen s.connections

def lookupEntries (m : ConnTable) (k : ConnectionKey) : List ConnectionPoolEntry :=
  (((m.find? (fun p => p.1 == k)).map (fun p => p.2)).getD [])

def containsKey (m : ConnTable) (k : ConnectionKey) : Bool :=
  (m.find? (fun p => p.1 == k)).isSome

/-- `HashMap::get_mut` followed by an in-place update: apply `f` to the entry
list of the first matching key, leave everything else alone. -/
def updateEntries : ConnTable → ConnectionKey →
    (List ConnectionPoolEntry → List ConnectionPoolEntry) → ConnTable
  | [], _, _ => []
  | p :: m, k, f => if p.1 = k then (p.1, f p.2) :: m else p :: updateEntries m k f

/-- `ConnectionPool::with_config`: empty table, zero counter. -/
def with_config (max_connections idle_timeout : Nat) : ConnectionPoolInner :=
  ⟨[], idle_timeout, max_connections, 0⟩

/-- The idle-scan of `get_connection` (connection_pool.rs:86-97): mark the
first entry that is not `in_use` and not stale, refreshing its `last_used`;
report whether one was found. -/
def markFirstIdle (now idle_timeout : Nat) :
    List ConnectionPoolEntry → List ConnectionPoolEntry × Bool
  | [] => ([], false)
  | e :: es =>
    if !e.in_use && now - e.last_used < idle_timeout then
      ({ e with in_use := true, last_used := now } :: es, true)
    else
      let r := markFirstIdle now idle_timeout es
      (e :: r.1, r.2)

/-- The first lock-holding section of `get_connection`: try to reuse an idle
connection under the key. -/
def get_connection_reuse (s : ConnectionPoolInner) (key : ConnectionKey) (now : Nat) :
    ConnectionPoolInner × Bool :=
  ({ s with connections :=
      updateEntries s.connections key (fun es => (markFirstIdle now s.idle_timeout es).1) },
   (markFirstIdle now s.idle_timeout (lookupEntries s.connections key)).2)

/-- The second lock-holding section of `get_connection`
(connection_pool.rs:133-146): after a successful connect, increment the
counter and append a fresh `in_use` entry under the key
(`entry(key).or_insert_with(Vec::new)` followed by `push`). -/
def add_connection (s : ConnectionPoolInner) (key : ConnectionKey) (now stream : Nat) :
    ConnectionPoolInner :=
  { s with
    total_connections := s.total_connections + 1,
    connections :=
      if containsKey s.connections key then
        updateEntries s.connections key (fun es => es ++ [⟨stream, now, now, true⟩])
      else
        s.connections ++ [(key, [⟨stream, now, now, true⟩])] }

/-- The `retain` predicate of `cleanup` (connection_pool.rs:173). -/
def keepEntry (now idle_timeout : Nat) (e : ConnectionPoolEntry) : Bool :=
  e.in_use || now - e.last_used < idle_timeout

/-- `total_removed` of `cleanup`: per key, the number of entries `retain`
dropped. -/
def removedCount (s : ConnectionPoolInner) (now : Nat) : Nat :=
  (s.connections.map
    (fun p => p.2.length - (p.2.filter (keepEntry now s.idle_timeout)).length)).sum

/-- `ConnectionPool::cleanup` (connection_pool.rs:161-192): retain fresh or
in-use entries, drop keys whose list became empty, and decrement the counter
by the number removed (`saturating_sub`, which on `Nat` is plain
subtraction). -/
def cleanup (s : ConnectionPoolInner) (now : Nat) : ConnectionPoolInner :=
  { s with
    connections :=
      (s.connections.map (fun p => (p.1, p.2.filter (keepEntry now s.idle_timeout)))).filter
        (fun p => !p.2.isEmpty),
    total_connections := s.total_connections - removedCount s now }

/-- `ConnectionPool::close_all_connections` (connection_pool.rs:226-231). -/
def close_all_connections (s : ConnectionPoolInner) : ConnectionPoolInner :=
  { s with connections := [], total_connections := 0 }

/-- The scan of `Drop for ConnectionGuard` (connection_pool.rs:268-275): flip
the first `in_use` entry back to idle and refresh its `last_used`. -/
def releaseFirstInUse (now : Nat) : List ConnectionPoolEntry → List ConnectionPoolEntry
  | [] => []
  | e :: es =>
    if e.in_use then { e with in_use := false, last_used := now } :: es
    else e :: releaseFirstInUse now es

/-- `Drop for ConnectionGuard` (connection_pool.rs:260-282): the key's list,
when present, is scanned for the first `in_use` entry; nothing else is
touched. -/
def guard_drop (s : ConnectionPoolInner) (key : ConnectionKey) (now : Nat) :
    ConnectionPoolInner :=
  { s with connections := updateEntries s.connections key (releaseFirstInUse now) }

/-- `ConnectionGuard`: the checkout handle; it stores the key and the wrapped
stream, nothing about the pool's table. -/
structure ConnectionGuard where
  key : ConnectionKey
  stream : Nat
deriving DecidableEq, Repr

/-- `ConnectionGuard::get_mut` (connection_pool.rs:251-253): unconditionally
`Some` of the wrapped stream. -/
def ConnectionGuard.get_mut (g : ConnectionGuard) : Option Nat :=
  some g.stream

/-- `ConnectionGuard::is_valid` (connection_pool.rs:255-257): unconditionally
`true`. -/
def ConnectionGuard.is_valid (_ : ConnectionGuard) : Bool :=
  true

/-! ## Theorems -/

@[simp] theorem ParseResult.bind_ok {α β : Type} (a : α) (f : α → ParseResult β) :
    ParseResult.bind (.ok a) f = f a := rfl

@[simp] theorem ParseResult.bind_err {α β : Type} (f : α → ParseResult β) :
    ParseResult.bind .err f = .err := rfl

@[simp] theorem ParseResult.bind_panic {α β : Type} (f : α → ParseResult β) :
    ParseResult.bind .panic f = .panic := rfl

@[simp] theorem ParseResult.bind_diverge {α β : Type} (f : α → ParseResult β) :
    ParseResult.bind .diverge f = .diverge := rfl

@[simp] theorem ParseResult.monad_bind {α β : Type} (x : ParseResult α) (f : α → ParseResult β) :
    x >>= f = ParseResult.bind x f := rfl

@[simp] theorem ParseResult.monad_pure {α : Type} (a : α) :
    (pure a : ParseResult α) = .ok a := rfl

@[simp] theorem getByte_eq_some {data : List Nat} {i : Nat} {b : Nat}
    (h : data[i]? = some b) : getByte data i = .ok b := by
  simp [getByte, h]

@[simp] theorem getByte_eq_none {data : List Nat} {i : Nat}
    (h : data[i]? = none) : getByte data i = .panic := by
  simp [getByte, h]

theorem selfPointerDiverges : ∀ fuel, parseNameLoop [0xC0, 0x00] fuel 0 "" = .diverge
  | 0 => rfl
  | n + 1 => by
    have ih := selfPointerDiverges n
    have h0 : (192 &&& 63) <<< 8 = 0 := by decide
    simp [parseNameLoop, getByte, h0, ih]

/-- Claim C1: the claim says decoding is total and returns `ProtocolError`
whenever any read would run past the end of the buffer.  The code does return
the error for a buffer shorter than 12 bytes (first conjunct), but a
header-only buffer that announces one question makes `parse_dns_name` index
past the end of the slice, which in Rust is a panic, not a returned error
(second conjunct). -/
theorem claim_C1_truncated_question_panics :
    parse_response 64 [0, 0, 0, 0, 0, 0, 0, 0, 0, 0, 0] = .err ∧
    parse_response 64 [0, 0, 0, 0, 0, 1, 0, 0, 0, 0, 0, 0] = .panic := by
  constructor
  · rfl
  · rfl

/-- Claim C2: the claim says a cyclic or self-referential compression pointer
is rejected as `ProtocolError`.  The code follows pointers by plain recursion
with no jump limit and no requirement that the target offset decrease: on the
two-byte name `C0 00` — a pointer to offset 0, i.e. to itself — the decoder
never terminates (it is out of fuel for every fuel value, never `ok` and
never `err`). -/
theorem claim_C2_self_pointer_never_terminates :
    ∀ fuel, parse_dns_name fuel [0xC0, 0x00] 0 = .diverge := by
  intro fuel
  exact selfPointerDiverges fuel

/-- Claim C4: record payload decoding is exact-length-checked.  An `A` record
whose rdlength is not 4 fails; an `AAAA` record whose rdlength is not 16
fails; an `AAAA` record's 16 payload bytes become the eight big-endian 16-bit
groups of the address (instantiated in the witness at the claim's payload
`0020:0db8:0000:0000:0000:0000:0000:0001`, whose group list
`[0x20, 0xdb8, 0, 0, 0, 0, 0, 1]` is the address written `20:db8::1`); a
record whose type code is outside the closed enumeration fails rather than
being defaulted. -/
theorem claim_C4_record_payload_decoding :
    (∀ fuel hi lo rest, hi < 256 → lo < 256 → hi * 256 + lo ≠ 4 →
      parse_records (fuel + 1) (rrBuf 0 1 hi lo rest) 0 1 = .err) ∧
    (∀ fuel hi lo rest, hi < 256 → lo < 256 → hi * 256 + lo ≠ 16 →
      parse_records (fuel + 1) (rrBuf 0 28 hi lo rest) 0 1 = .err) ∧
    (∀ fuel h0 l0 h1 l1 h2 l2 h3 l3 h4 l4 h5 l5 h6 l6 h7 l7 rest,
      h0 < 256 → l0 < 256 → h1 < 256 → l1 < 256 → h2 < 256 → l2 < 256 →
      h3 < 256 → l3 < 256 → h4 < 256 → l4 < 256 → h5 < 256 → l5 < 256 →
      h6 < 256 → l6 < 256 → h7 < 256 → l7 < 256 →
      parse_records (fuel + 1)
        (rrBuf 0 28 0 16 (h0 :: l0 :: h1 :: l1 :: h2 :: l2 :: h3 :: l3 ::
          h4 :: l4 :: h5 :: l5 :: h6 :: l6 :: h7 :: l7 :: rest)) 0 1 =
      .ok ([DnsRecord.mk "" .AAAA 60 (.AAAA (.v6
        [h0 * 256 + l0, h1 * 256 + l1, h2 * 256 + l2, h3 * 256 + l3,
         h4 * 256 + l4, h5 * 256 + l5, h6 * 256 + l6, h7 * 256 + l7]))], 27)) ∧
    (∀ fuel tyHi tyLo rest, tyHi < 256 → tyLo < 256 →
      DnsRecordType.from_u16 (tyHi * 256 + tyLo) = none →
      parse_records (fuel + 1) (rrBuf tyHi tyLo 0 0 rest) 0 1 = .err) := by
  refine ⟨?_, ?_, ?_, ?_⟩
  · intro fuel hi lo rest _ _ h4
    have hname : parse_dns_name (fuel + 1) (rrBuf 0 1 hi lo rest) 0 = .ok ("", 1) := by
      simp [rrBuf, parse_dns_name, parseNameLoop, getByte]
    simp only [parse_records, parseRecord, hname, ParseResult.bind_ok, ParseResult.monad_bind,
      ParseResult.monad_pure]
    simp [rrBuf, readU16, readU32, getByte, DnsRecordType.from_u16, h4]
  · intro fuel hi lo rest _ _ h16
    have hname : parse_dns_name (fuel + 1) (rrBuf 0 28 hi lo rest) 0 = .ok ("", 1) := by
      simp [rrBuf, parse_dns_name, parseNameLoop, getByte]
    simp only [parse_records, parseRecord, hname, ParseResult.bind_ok, ParseResult.monad_bind,
      ParseResult.monad_pure]
    simp [rrBuf, readU16, readU32, getByte, DnsRecordType.from_u16, h16]
  · intro fuel h0 l0 h1 l1 h2 l2 h3 l3 h4 l4 h5 l5 h6 l6 h7 l7 rest
    intro _ _ _ _ _ _ _ _ _ _ _ _ _ _ _ _
    have hname : parse_dns_name (fuel + 1)
        (rrBuf 0 28 0 16 (h0 :: l0 :: h1 :: l1 :: h2 :: l2 :: h3 :: l3 ::
          h4 :: l4 :: h5 :: l5 :: h6 :: l6 :: h7 :: l7 :: rest)) 0 = .ok ("", 1) := by
      simp [rrBuf, parse_dns_name, parseNameLoop, getByte]
    simp only [parse_records, parseRecord, hname, ParseResult.bind_ok, ParseResult.monad_bind,
      ParseResult.monad_pure]
    simp [rrBuf, readU16, readU32, getByte, DnsRecordType.from_u16]
  · intro fuel tyHi tyLo rest _ _ hnone
    have hname : parse_dns_name (fuel + 1) (rrBuf tyHi tyLo 0 0 rest) 0 = .ok ("", 1) := by
      simp [rrBuf, parse_dns_name, parseNameLoop, getByte]
    simp only [parse_records, parseRecord, hname, ParseResult.bind_ok, ParseResult.monad_bind,
      ParseResult.monad_pure]
    simp [rrBuf, readU16, readU32, getByte, hnone]

theorem find?_cacheInsert_self (k : String) (v : DnsCacheEntry) :
    ∀ c : Cache, (cacheInsert c k v).find? (fun p => p.1 == k) = some (k, v)
  | [] => by simp [cacheInsert]
  | p :: c => by
    by_cases h : p.1 = k
    · simp [cacheInsert, h]
    · have hne : (p.1 == k) = false := by simpa using h
      simp [cacheInsert, hne, List.find?_cons_of_neg, find?_cacheInsert_self k v c]

theorem cacheLookup_insert_self (c : Cache) (k : String) (v : DnsCacheEntry) :
    cacheLookup (cacheInsert c k v) k = some v := by
  simp [cacheLookup, find?_cacheInsert_self]

/-- Successful miss-leg calls have the shape the cache claims need. -/
theorem queryMiss_ok_shape (c : Cache) (now : Nat) (key : String) (ty : DnsRecordType)
    (wire : Except QueryError DnsResponse) (recs : List DnsRecord)
    (h : (queryMiss c now key ty wire).result = .ok recs) :
    ∃ resp, wire = .ok resp ∧ resp.rcode = 0 ∧
      recs = resp.answers.filter (fun r => r.record_type == ty) ∧ recs ≠ [] ∧
      queryMiss c now key ty wire =
        ⟨.ok recs, cacheInsert c key ⟨recs, now + min_ttl recs⟩, 1⟩ := by
  match hw : wire with
  | .error e => simp [queryMiss, hw] at h
  | .ok resp =>
    refine ⟨resp, rfl, ?_⟩
    by_cases hrc : resp.rcode ≠ 0
    · simp [queryMiss, hrc] at h
    · push_neg at hrc
      by_cases hemp : (resp.answers.filter (fun r => r.record_type == ty)).isEmpty
      · simp [queryMiss, hrc, hemp] at h
      · have hres : recs = resp.answers.filter (fun r => r.record_type == ty) := by
          simp [queryMiss, hrc, hemp] at h
          exact h.symm
        refine ⟨hrc, hres, ?_, ?_⟩
        · intro hnil
          rw [hres] at hnil
          simp [hnil] at hemp
        · simp [queryMiss, hrc, hemp, hres]

/-- Failed miss-leg calls leave the cache untouched and send one datagram. -/
theorem queryMiss_error_frame (c : Cache) (now : Nat) (key : String) (ty : DnsRecordType)
    (wire : Except QueryError DnsResponse) (e : QueryError)
    (h : (queryMiss c now key ty wire).result = .error e) :
    (queryMiss c now key ty wire).cache = c ∧ (queryMiss c now key ty wire).sent = 1 := by
  match hw : wire with
  | .error e' => simp [queryMiss, hw]
  | .ok resp =>
    by_cases hrc : resp.rcode ≠ 0
    · simp [queryMiss, hrc]
    · push_neg at hrc
      by_cases hemp : (resp.answers.filter (fun r => r.record_type == ty)).isEmpty
      · simp [queryMiss, hrc, hemp]
      · simp [queryMiss, hrc, hemp] at h

/-- Witness for C4 at concrete inputs: an `A` record with rdlength 5, an
`AAAA` record with rdlength 5, the claim's own 16-byte `AAAA` payload, and
the unknown type code 16 (TXT). -/
theorem claim_C4_record_payload_decoding_witness :
    parse_records 8 (rrBuf 0 1 0 5 [9, 9, 9, 9, 9]) 0 1 = .err ∧
    parse_records 8 (rrBuf 0 28 0 5 [9, 9, 9, 9, 9]) 0 1 = .err ∧
    parse_records 8 (rrBuf 0 28 0 16
      [0x00, 0x20, 0x0d, 0xb8, 0, 0, 0, 0, 0, 0, 0, 0, 0, 0, 0, 0x01]) 0 1 =
      .ok ([DnsRecord.mk "" .AAAA 60 (.AAAA (.v6 [0x20, 0xdb8, 0, 0, 0, 0, 0, 1]))], 27) ∧
    parse_records 8 (rrBuf 0 16 0 0 []) 0 1 = .err := by
  refine ⟨?_, ?_, ?_, ?_⟩
  · exact claim_C4_record_payload_decoding.1 7 0 5 [9, 9, 9, 9, 9]
      (by decide) (by decide) (by decide)
  · exact claim_C4_record_payload_decoding.2.1 7 0 5 [9, 9, 9, 9, 9]
      (by decide) (by decide) (by decide)
  · have h := claim_C4_record_payload_decoding.2.2.1 7
      0x00 0x20 0x0d 0xb8 0 0 0 0 0 0 0 0 0 0 0 0x01 []
      (by decide) (by decide) (by decide) (by decide) (by decide) (by decide)
      (by decide) (by decide) (by decide) (by decide) (by decide) (by decide)
      (by decide) (by decide) (by decide) (by decide)
    simpa using h
  · exact claim_C4_record_payload_decoding.2.2.2 7 0 16 [] (by decide) (by decide) (by decide)

/-! ### Pool-state helper lemmas -/

@[simp] theorem sumLen_nil : sumLen [] = 0 := rfl

@[simp] theorem sumLen_cons (p : ConnectionKey × List ConnectionPoolEntry) (m : ConnTable) :
    sumLen (p :: m) = p.2.length + sumLen m := by
  simp [sumLen]

theorem sumLen_append (m m' : ConnTable) : sumLen (m ++ m') = sumLen m + sumLen m' := by
  simp [sumLen]

theorem markFirstIdle_length (now t : Nat) :
    ∀ es, (markFirstIdle now t es).1.length = es.length
  | [] => rfl
  | e :: es => by
    by_cases h : (!e.in_use && decide (now - e.last_used < t)) = true
    · simp [markFirstIdle, h]
    · simp only [markFirstIdle]
      rw [if_neg h]
      simp [markFirstIdle_length now t es]

theorem releaseFirstInUse_length (now : Nat) :
    ∀ es, (releaseFirstInUse now es).length = es.length
  | [] => rfl
  | e :: es => by
    by_cases h : e.in_use
    · simp [releaseFirstInUse, h]
    · simp [releaseFirstInUse, h, releaseFirstInUse_length now es]

theorem sumLen_updateEntries (k : ConnectionKey)
    (f : List ConnectionPoolEntry → List ConnectionPoolEntry)
    (hf : ∀ es, (f es).length = es.length) :
    ∀ m, sumLen (updateEntries m k f) = sumLen m
  | [] => rfl
  | p :: m => by
    by_cases h : p.1 = k
    · simp [updateEntries, h, hf]
    · simp [updateEntries, h, sumLen_updateEntries k f hf m]

theorem sumLen_updateEntries_push (k : ConnectionKey) (e : ConnectionPoolEntry) :
    ∀ m, containsKey m k = true →
      sumLen (updateEntries m k (fun es => es ++ [e])) = sumLen m + 1
  | [], h => by simp [containsKey] at h
  | p :: m, h => by
    by_cases hp : p.1 = k
    · simp [updateEntries, hp]
      omega
    · have hc : containsKey m k = true := by
        simpa [containsKey, List.find?, show (p.1 == k) = false by simpa using hp] using h
      simp [updateEntries, hp, sumLen_updateEntries_push k e m hc]
      omega

theorem sumLen_filter_nonempty :
    ∀ m : ConnTable, sumLen (m.filter (fun p => !p.2.isEmpty)) = sumLen m
  | [] => rfl
  | p :: m => by
    by_cases h : p.2.isEmpty
    · have : p.2.length = 0 := by simpa [List.isEmpty_iff_length_eq_zero] using h
      simp [List.filter, h, sumLen_filter_nonempty m, this]
    · simp [List.filter, h, sumLen_filter_nonempty m]

theorem removed_add_retained (q : ConnectionPoolEntry → Bool) :
    ∀ m : ConnTable,
      (m.map (fun p => p.2.length - (p.2.filter q).length)).sum +
        sumLen (m.map (fun p => (p.1, p.2.filter q))) = sumLen m
  | [] => rfl
  | p :: m => by
    have hle : (p.2.filter q).length ≤ p.2.length := List.length_filter_le _ _
    have ih := removed_add_retained q m
    simp only [List.map_cons, List.sum_cons, sumLen_cons]
    omega

@[simp] theorem lookupEntries_nil (k : ConnectionKey) : lookupEntries [] k = [] := rfl

@[simp] theorem lookupEntries_cons (p : ConnectionKey × List ConnectionPoolEntry)
    (m : ConnTable) (k : ConnectionKey) :
    lookupEntries (p :: m) k = if p.1 = k then p.2 else lookupEntries m k := by
  by_cases h : p.1 = k
  · simp [lookupEntries, List.find?_cons_of_pos, h]
  · rw [if_neg h]
    simp [lookupEntries, List.find?_cons_of_neg, h]

@[simp] theorem containsKey_nil (k : ConnectionKey) : containsKey [] k = false := rfl

@[simp] theorem containsKey_cons (p : ConnectionKey × List ConnectionPoolEntry)
    (m : ConnTable) (k : ConnectionKey) :
    containsKey (p :: m) k = if p.1 = k then true else containsKey m k := by
  by_cases h : p.1 = k
  · simp [containsKey, List.find?_cons_of_pos, h]
  · rw [if_neg h]
    simp [containsKey, List.find?_cons_of_neg, h]

theorem updateEntries_keys (k : ConnectionKey)
    (f : List ConnectionPoolEntry → List ConnectionPoolEntry) :
    ∀ m, (updateEntries m k f).map (fun p => p.1) = m.map (fun p => p.1)
  | [] => rfl
  | p :: m => by
    by_cases h : p.1 = k
    · simp [updateEntries, h]
    · simp [updateEntries, h, updateEntries_keys k f m]

theorem lookupEntries_updateEntries_ne (k k' : ConnectionKey)
    (f : List ConnectionPoolEntry → List ConnectionPoolEntry) (hk : k' ≠ k) :
    ∀ m, lookupEntries (updateEntries m k f) k' = lookupEntries m k'
  | [] => rfl
  | p :: m => by
    by_cases h : p.1 = k
    · have hne : p.1 ≠ k' := fun he => hk (he.symm.trans h)
      have hkk : ¬(k = k') := fun he => hk he.symm
      simp [updateEntries, h, hne, hkk]
    · by_cases h' : p.1 = k'
      · have hkk : ¬(k' = k) := fun he => h (h'.trans he)
        simp [updateEntries, h, h', hkk]
      · simp [updateEntries, h, h', lookupEntries_updateEntries_ne k k' f hk m]

theorem lookupEntries_updateEntries_self (k : ConnectionKey)
    (f : List ConnectionPoolEntry → List ConnectionPoolEntry) (hf : f [] = []) :
    ∀ m, lookupEntries (updateEntries m k f) k = f (lookupEntries m k)
  | [] => by simp [updateEntries, hf]
  | p :: m => by
    by_cases h : p.1 = k
    · simp [updateEntries, h]
    · simp [updateEntries, h, lookupEntries_updateEntries_self k f hf m]

theorem releaseFirstInUse_getElem (now : Nat) :
    ∀ (l : List ConnectionPoolEntry) (i : Nat),
      (releaseFirstInUse now l)[i]? =
        if i = l.findIdx (fun e => e.in_use)
        then l[i]?.map (fun e => { e with in_use := false, last_used := now })
        else l[i]?
  | [], i => by by_cases h : i = 0 <;> simp [releaseFirstInUse]
  | e :: es, i => by
    by_cases hu : e.in_use
    · match i with
      | 0 => simp [releaseFirstInUse, hu, List.findIdx_cons]
      | j + 1 => simp [releaseFirstInUse, hu, List.findIdx_cons]
    · match i with
      | 0 => simp [releaseFirstInUse, hu, List.findIdx_cons]
      | j + 1 =>
        have ih := releaseFirstInUse_getElem now es j
        simp [releaseFirstInUse, hu, List.findIdx_cons, ih]

theorem lookup_mapfilter_nil (q : ConnectionPoolEntry → Bool) (k : ConnectionKey) :
    ∀ m : ConnTable, (∀ p ∈ m, p.1 ≠ k) →
      lookupEntries ((m.map (fun p => (p.1, p.2.filter q))).filter (fun p => !p.2.isEmpty)) k = []
  | [], _ => rfl
  | p :: m, h => by
    have hp : p.1 ≠ k := h p (by simp)
    have hm : ∀ p' ∈ m, p'.1 ≠ k := fun p' hp' => h p' (by simp [hp'])
    by_cases he : (p.2.filter q).isEmpty
    · simp only [List.map_cons, List.filter_cons, he]
      simpa using lookup_mapfilter_nil q k m hm
    · simp only [List.map_cons, List.filter_cons, he]
      simp only [Bool.not_false, if_true]
      simpa [lookupEntries_cons, hp] using lookup_mapfilter_nil q k m hm

theorem contains_mapfilter_false (q : ConnectionPoolEntry → Bool) (k : ConnectionKey) :
    ∀ m : ConnTable, (∀ p ∈ m, p.1 ≠ k) →
      containsKey ((m.map (fun p => (p.1, p.2.filter q))).filter (fun p => !p.2.isEmpty)) k = false
  | [], _ => rfl
  | p :: m, h => by
    have hp : p.1 ≠ k := h p (by simp)
    have hm : ∀ p' ∈ m, p'.1 ≠ k := fun p' hp' => h p' (by simp [hp'])
    by_cases he : (p.2.filter q).isEmpty
    · simp only [List.map_cons, List.filter_cons, he]
      simpa using contains_mapfilter_false q k m hm
    · simp only [List.map_cons, List.filter_cons, he]
      simp only [Bool.not_false, if_true]
      simpa [containsKey_cons, hp] using contains_mapfilter_false q k m hm

theorem lookup_mapfilter (q : ConnectionPoolEntry → Bool) (k : ConnectionKey) :
    ∀ m : ConnTable, (m.map (fun p => p.1)).Nodup →
      lookupEntries ((m.map (fun p => (p.1, p.2.filter q))).filter (fun p => !p.2.isEmpty)) k =
        (lookupEntries m k).filter q
  | [], _ => rfl
  | p :: m, hnd => by
    have hnotmem : p.1 ∉ m.map (fun p => p.1) := (List.nodup_cons.mp (by simpa using hnd)).1
    have hndm : (m.map (fun p => p.1)).Nodup := (List.nodup_cons.mp (by simpa using hnd)).2
    by_cases hk : p.1 = k
    · by_cases he : (p.2.filter q).isEmpty
      · simp only [List.map_cons, List.filter_cons, he]
        have hnil : ∀ p' ∈ m, p'.1 ≠ k := by
          intro p' hp' heq
          exact hnotmem (by simpa [hk, ← heq] using List.mem_map_of_mem (fun p => p.1) hp')
        have h1 := lookup_mapfilter_nil q k m hnil
        have h2 : (p.2.filter q) = [] := by simpa [List.isEmpty_iff] using he
        simpa [lookupEntries_cons, hk, h2] using h1
      · simp only [List.map_cons, List.filter_cons, he]
        simp [lookupEntries_cons, hk]
    · by_cases he : (p.2.filter q).isEmpty
      · simp only [List.map_cons, List.filter_cons, he]
        simpa [lookupEntries_cons, hk] using lookup_mapfilter q k m hndm
      · simp only [List.map_cons, List.filter_cons, he]
        simpa [lookupEntries_cons, hk] using lookup_mapfilter q k m hndm

theorem mem_lookup_mapfilter (q : ConnectionPoolEntry → Bool) (k : ConnectionKey)
    (e : ConnectionPoolEntry) :
    ∀ m : ConnTable,
      e ∈ lookupEntries ((m.map (fun p => (p.1, p.2.filter q))).filter (fun p => !p.2.isEmpty)) k →
      q e = true
  | [], h => by simp at h
  | p :: m, h => by
    by_cases he : (p.2.filter q).isEmpty
    · simp only [List.map_cons, List.filter_cons, he] at h
      exact mem_lookup_mapfilter q k e m (by simpa using h)
    · simp only [List.map_cons, List.filter_cons, he] at h
      simp only [Bool.not_false, if_true] at h
      rw [lookupEntries_cons] at h
      by_cases hk : p.1 = k
      · rw [if_pos hk] at h
        exact List.of_mem_filter h
      · rw [if_neg hk] at h
        exact mem_lookup_mapfilter q k e m h

theorem contains_mapfilter_of_empty (q : ConnectionPoolEntry → Bool) (k : ConnectionKey) :
    ∀ m : ConnTable, (m.map (fun p => p.1)).Nodup →
      (lookupEntries m k).filter q = [] →
      containsKey ((m.map (fun p => (p.1, p.2.filter q))).filter (fun p => !p.2.isEmpty)) k = false
  | [], _, _ => rfl
  | p :: m, hnd, hempty => by
    have hnotmem : p.1 ∉ m.map (fun p => p.1) := (List.nodup_cons.mp (by simpa using hnd)).1
    have hndm : (m.map (fun p => p.1)).Nodup := (List.nodup_cons.mp (by simpa using hnd)).2
    by_cases hk : p.1 = k
    · have hpe : p.2.filter q = [] := by
        simpa [lookupEntries_cons, hk] using hempty
      have he : (p.2.filter q).isEmpty = true := by simp [hpe]
      simp only [List.map_cons, List.filter_cons, he]
      have hnil : ∀ p' ∈ m, p'.1 ≠ k := by
        intro p' hp' heq
        exact hnotmem (by simpa [hk, ← heq] using List.mem_map_of_mem (fun p => p.1) hp')
      simpa using contains_mapfilter_false q k m hnil
    · have hempty' : (lookupEntries m k).filter q = [] := by
        simpa [lookupEntries_cons, hk] using hempty
      by_cases he : (p.2.filter q).isEmpty
      · simp only [List.map_cons, List.filter_cons, he]
        simpa using contains_mapfilter_of_empty q k m hndm hempty'
      · simp only [List.map_cons, List.filter_cons, he]
        simp only [Bool.not_false, if_true]
        simpa [containsKey_cons, hk] using contains_mapfilter_of_empty q k m hndm hempty'

theorem contains_cleanup_of_empty (s : ConnectionPoolInner) (now : Nat)
    (hnd : (s.connections.map (fun p => p.1)).Nodup) (k : ConnectionKey)
    (hempty : (lookupEntries s.connections k).filter (keepEntry now s.idle_timeout) = []) :
    containsKey (cleanup s now).connections k = false :=
  contains_mapfilter_of_empty (keepEntry now s.idle_timeout) k s.connections hnd hempty

/-! ### Pool claims -/

/-- Claim C3: the counter/sum invariant holds initially and is preserved by
both lock-holding sections of `get_connection`, by `cleanup`, by
`close_all_connections`, and by the guard-release scan. -/
theorem claim_C3_pool_invariant (s : ConnectionPoolInner) (key : ConnectionKey)
    (now stream mc it : Nat) (h : poolInvariant s) :
    poolInvariant (with_config mc it) ∧
    poolInvariant (get_connection_reuse s key now).1 ∧
    poolInvariant (add_connection s key now stream) ∧
    poolInvariant (cleanup s now) ∧
    poolInvariant (close_all_connections s) ∧
    poolInvariant (guard_drop s key now) := by
  refine ⟨rfl, ?_, ?_, ?_, rfl, ?_⟩
  · unfold poolInvariant at h ⊢
    simpa [get_connection_reuse,
      sumLen_updateEntries key _ (fun es => markFirstIdle_length now s.idle_timeout es)] using h
  · unfold poolInvariant at h ⊢
    by_cases hc : containsKey s.connections key = true
    · simp [add_connection, hc, sumLen_updateEntries_push key _ _ hc, h]
    · simp [add_connection, hc, sumLen_append, h]
  · unfold poolInvariant at h ⊢
    have h1 := sumLen_filter_nonempty
      (s.connections.map (fun p => (p.1, p.2.filter (keepEntry now s.idle_timeout))))
    have h2 := removed_add_retained (keepEntry now s.idle_timeout) s.connections
    simp only [cleanup, removedCount]
    omega
  · unfold poolInvariant at h ⊢
    simpa [guard_drop,
      sumLen_updateEntries key _ (fun es => releaseFirstInUse_length now es)] using h

/-- Witness for C3 at a concrete satisfying state. -/
theorem claim_C3_pool_invariant_witness :
    poolInvariant (ConnectionPoolInner.mk [(⟨"http", "h", 80⟩, [⟨1, 0, 0, false⟩])] 300 100 1) ∧
    poolInvariant
      (cleanup (ConnectionPoolInner.mk [(⟨"http", "h", 80⟩, [⟨1, 0, 0, false⟩])] 300 100 1) 500) := by
  have h : poolInvariant (ConnectionPoolInner.mk [(⟨"http", "h", 80⟩, [⟨1, 0, 0, false⟩])] 300 100 1) := by
    simp [poolInvariant, sumLen]
  exact ⟨h, (claim_C3_pool_invariant _ ⟨"http", "h", 80⟩ 500 7 100 300 h).2.2.2.1⟩

/-- Claim C9: guard release only rewrites the first `in_use` entry of the
guard's key (flipping `in_use` and refreshing `last_used`), keeps every other
entry, field, key, and the counter unchanged, and never removes an entry. -/
theorem claim_C9_release_frame (s : ConnectionPoolInner) (key : ConnectionKey) (now : Nat) :
    (guard_drop s key now).connections.map (fun p => p.1) = s.connections.map (fun p => p.1) ∧
    (guard_drop s key now).total_connections = s.total_connections ∧
    (∀ k', k' ≠ key →
      lookupEntries (guard_drop s key now).connections k' = lookupEntries s.connections k') ∧
    lookupEntries (guard_drop s key now).connections key =
      releaseFirstInUse now (lookupEntries s.connections key) ∧
    (∀ l : List ConnectionPoolEntry, (releaseFirstInUse now l).length = l.length) ∧
    (∀ (l : List ConnectionPoolEntry) (i : Nat),
      (releaseFirstInUse now l)[i]? =
        if i = l.findIdx (fun e => e.in_use)
        then l[i]?.map (fun e => { e with in_use := false, last_used := now })
        else l[i]?) := by
  refine ⟨?_, rfl, ?_, ?_, releaseFirstInUse_length now, releaseFirstInUse_getElem now⟩
  · exact updateEntries_keys key _ s.connections
  · intro k' hk
    exact lookupEntries_updateEntries_ne key k' _ hk s.connections
  · exact lookupEntries_updateEntries_self key _ rfl s.connections

/-- Witness for C9 on a two-key pool whose released key holds an idle entry
followed by an in-use one. -/
theorem claim_C9_release_frame_witness :
    lookupEntries (guard_drop (ConnectionPoolInner.mk
        [(⟨"http", "a", 80⟩, [⟨1, 0, 0, false⟩, ⟨2, 0, 0, true⟩]),
         (⟨"http", "b", 80⟩, [⟨3, 0, 0, true⟩])] 300 100 3)
      ⟨"http", "a", 80⟩ 50).connections ⟨"http", "b", 80⟩ = [⟨3, 0, 0, true⟩] ∧
    lookupEntries (guard_drop (ConnectionPoolInner.mk
        [(⟨"http", "a", 80⟩, [⟨1, 0, 0, false⟩, ⟨2, 0, 0, true⟩]),
         (⟨"http", "b", 80⟩, [⟨3, 0, 0, true⟩])] 300 100 3)
      ⟨"http", "a", 80⟩ 50).connections ⟨"http", "a", 80⟩ =
      releaseFirstInUse 50 [⟨1, 0, 0, false⟩, ⟨2, 0, 0, true⟩] := by
  constructor
  · have h := (claim_C9_release_frame (ConnectionPoolInner.mk
        [(⟨"http", "a", 80⟩, [⟨1, 0, 0, false⟩, ⟨2, 0, 0, true⟩]),
         (⟨"http", "b", 80⟩, [⟨3, 0, 0, true⟩])] 300 100 3)
      ⟨"http", "a", 80⟩ 50).2.2.1 ⟨"http", "b", 80⟩ (by decide)
    rw [h]
    rfl
  · have h := (claim_C9_release_frame (ConnectionPoolInner.mk
        [(⟨"http", "a", 80⟩, [⟨1, 0, 0, false⟩, ⟨2, 0, 0, true⟩]),
         (⟨"http", "b", 80⟩, [⟨3, 0, 0, true⟩])] 300 100 3)
      ⟨"http", "a", 80⟩ 50).2.2.2.1
    rw [h]
    rfl

/-- Claim C8: `cleanup` retains exactly the entries that are `in_use` or
fresh; `in_use` entries survive regardless of age; afterwards no idle entry
idle for at least `idle_timeout` remains; keys whose list empties are
removed; the counter drops by exactly the number of removed entries. -/
theorem claim_C8_cleanup_exact (s : ConnectionPoolInner) (now : Nat)
    (hnd : (s.connections.map (fun p => p.1)).Nodup) (hinv : poolInvariant s) :
    (∀ k, lookupEntries (cleanup s now).connections k =
      (lookupEntries s.connections k).filter (keepEntry now s.idle_timeout)) ∧
    (∀ k e, e ∈ lookupEntries s.connections k → e.in_use = true →
      e ∈ lookupEntries (cleanup s now).connections k) ∧
    (∀ k e, e ∈ lookupEntries (cleanup s now).connections k → e.in_use = false →
      now - e.last_used < s.idle_timeout) ∧
    (∀ k, (lookupEntries s.connections k).filter (keepEntry now s.idle_timeout) = [] →
      containsKey (cleanup s now).connections k = false) ∧
    (cleanup s now).total_connections + removedCount s now = s.total_connections := by
  have hlook : ∀ k, lookupEntries (cleanup s now).connections k =
      (lookupEntries s.connections k).filter (keepEntry now s.idle_timeout) :=
    fun k => lookup_mapfilter (keepEntry now s.idle_timeout) k s.connections hnd
  refine ⟨hlook, ?_, ?_, ?_, ?_⟩
  · intro k e hmem huse
    rw [hlook k]
    exact List.mem_filter.mpr ⟨hmem, by simp [keepEntry, huse]⟩
  · intro k e hmem huse
    have hq := mem_lookup_mapfilter (keepEntry now s.idle_timeout) k e s.connections hmem
    simpa [keepEntry, huse] using hq
  · intro k hempty
    exact contains_cleanup_of_empty s now hnd k hempty
  · have h1 := sumLen_filter_nonempty
      (s.connections.map (fun p => (p.1, p.2.filter (keepEntry now s.idle_timeout))))
    have h2 := removed_add_retained (keepEntry now s.idle_timeout) s.connections
    unfold poolInvariant at hinv
    simp only [cleanup, removedCount] at h2 ⊢
    omega



theorem query_eq_miss (c : Cache) (now : Nat) (domain : String) (ty : DnsRecordType)
    (w : Except QueryError DnsResponse)
    (hmiss : ∀ e, cacheLookup c (cacheKey domain ty) = some e → e.expires_at ≤ now) :
    query c now domain ty w = queryMiss c now (cacheKey domain ty) ty w := by
  unfold query
  cases hl : cacheLookup c (cacheKey domain ty) with
  | none => rfl
  | some e =>
    have h := hmiss e hl
    have hnot : ¬ now < e.expires_at := by omega
    simp [hnot]

theorem queryMiss_sent (c : Cache) (now : Nat) (key : String) (ty : DnsRecordType)
    (w : Except QueryError DnsResponse) : (queryMiss c now key ty w).sent = 1 := by
  cases w with
  | error e => rfl
  | ok resp =>
    by_cases hrc : resp.rcode ≠ 0
    · simp [queryMiss, hrc]
    · by_cases hemp : (resp.answers.filter (fun r => r.record_type == ty)).isEmpty
      · simp [queryMiss, hrc, hemp]
      · simp [queryMiss, hrc, hemp]

/-- Claim C7. -/
theorem claim_C7_response_handling (c : Cache) (now : Nat) (domain : String)
    (ty : DnsRecordType) (resp : DnsResponse)
    (hmiss : ∀ e, cacheLookup c (cacheKey domain ty) = some e → e.expires_at ≤ now) :
    (resp.rcode ≠ 0 →
      query c now domain ty (.ok resp) = ⟨.error (.serverError resp.rcode), c, 1⟩) ∧
    (resp.rcode = 0 → resp.answers.filter (fun r => r.record_type == ty) = [] →
      query c now domain ty (.ok resp) = ⟨.error .notFound, c, 1⟩) ∧
    (∀ recs, resp.rcode = 0 → resp.answers.filter (fun r => r.record_type == ty) = recs →
      recs ≠ [] →
      query c now domain ty (.ok resp) =
        ⟨.ok recs, cacheInsert c (cacheKey domain ty) ⟨recs, now + min_ttl recs⟩, 1⟩) := by
  rw [query_eq_miss c now domain ty (.ok resp) hmiss]
  refine ⟨?_, ?_, ?_⟩
  · intro hrc
    simp [queryMiss, hrc]
  · intro hrc hfil
    simp [queryMiss, hrc, hfil]
  · intro recs hrc hfil hne
    have hemp : (resp.answers.filter (fun r => r.record_type == ty)).isEmpty = false := by
      rw [hfil]
      simpa [List.isEmpty_iff] using hne
    simp [queryMiss, hrc, hemp, hfil, hne]

/-- Witness for C7: three one-record replies — rcode 3, rcode 0 with no
matching answer, rcode 0 with a matching `A` answer. -/
theorem claim_C7_response_handling_witness :
    query [] 10 "x" .A (.ok (DnsResponse.mk 1 true 0 false false true true 3 [] [] [] [])) =
      ⟨.error (.serverError 3), [], 1⟩ ∧
    query [] 10 "x" .A (.ok (DnsResponse.mk 1 true 0 false false true true 0 []
        [DnsRecord.mk "x" .NS 60 (.NS "n")] [] [])) =
      ⟨.error .notFound, [], 1⟩ ∧
    query [] 10 "x" .A (.ok (DnsResponse.mk 1 true 0 false false true true 0 []
        [DnsRecord.mk "x" .A 60 (.A (.v4 1 2 3 4))] [] [])) =
      ⟨.ok [DnsRecord.mk "x" .A 60 (.A (.v4 1 2 3 4))],
       [(cacheKey "x" .A, ⟨[DnsRecord.mk "x" .A 60 (.A (.v4 1 2 3 4))], 70⟩)], 1⟩ := by
  have hm : ∀ e, cacheLookup ([] : Cache) (cacheKey "x" DnsRecordType.A) = some e →
      e.expires_at ≤ 10 := by
    intro e he
    simp [cacheLookup] at he
  refine ⟨?_, ?_, ?_⟩
  · exact (claim_C7_response_handling [] 10 "x" .A
      (DnsResponse.mk 1 true 0 false false true true 3 [] [] [] []) hm).1 (by decide)
  · exact (claim_C7_response_handling [] 10 "x" .A
      (DnsResponse.mk 1 true 0 false false true true 0 []
        [DnsRecord.mk "x" .NS 60 (.NS "n")] [] []) hm).2.1 rfl (by decide)
  · have h := (claim_C7_response_handling [] 10 "x" .A
      (DnsResponse.mk 1 true 0 false false true true 0 []
        [DnsRecord.mk "x" .A 60 (.A (.v4 1 2 3 4))] [] []) hm).2.2
      [DnsRecord.mk "x" .A 60 (.A (.v4 1 2 3 4))] rfl (by decide) (by decide)
    rw [h]
    rfl



theorem query_hit (c : Cache) (now : Nat) (domain : String) (ty : DnsRecordType)
    (w : Except QueryError DnsResponse) (entry : DnsCacheEntry)
    (hl : cacheLookup c (cacheKey domain ty) = some entry) (ht : now < entry.expires_at) :
    query c now domain ty w = ⟨.ok entry.records, c, 0⟩ := by
  unfold query
  rw [hl]
  simp [ht]

/-- Claim C5. -/
theorem claim_C5_cache_single_round_trip (c : Cache) (t0 : Nat) (domain : String)
    (ty : DnsRecordType) (w1 : Except QueryError DnsResponse) (recs : List DnsRecord)
    (hmiss : cacheLookup c (cacheKey domain ty) = none)
    (hok : (query c t0 domain ty w1).result = .ok recs) :
    (query c t0 domain ty w1).sent = 1 ∧
    cacheLookup (query c t0 domain ty w1).cache (cacheKey domain ty) =
      some ⟨recs, t0 + min_ttl recs⟩ ∧
    (∀ t1 w2, t1 < t0 + min_ttl recs →
      query (query c t0 domain ty w1).cache t1 domain ty w2 =
        ⟨.ok recs, (query c t0 domain ty w1).cache, 0⟩) ∧
    (∀ t2 w2, t0 + min_ttl recs ≤ t2 →
      (query (query c t0 domain ty w1).cache t2 domain ty w2).sent = 1 ∧
      (∀ recs2, (query (query c t0 domain ty w1).cache t2 domain ty w2).result = .ok recs2 →
        cacheLookup (query (query c t0 domain ty w1).cache t2 domain ty w2).cache
          (cacheKey domain ty) = some ⟨recs2, t2 + min_ttl recs2⟩)) := by
  have hq : query c t0 domain ty w1 = queryMiss c t0 (cacheKey domain ty) ty w1 := by
    exact query_eq_miss c t0 domain ty w1 (by intro e he; rw [hmiss] at he; cases he)
  rw [hq] at hok
  obtain ⟨resp, hw, hrc, hrecs, hne, heq⟩ :=
    queryMiss_ok_shape c t0 (cacheKey domain ty) ty w1 recs hok
  have hcache : (query c t0 domain ty w1).cache =
      cacheInsert c (cacheKey domain ty) ⟨recs, t0 + min_ttl recs⟩ := by
    rw [hq, heq]
  have hlook : cacheLookup (query c t0 domain ty w1).cache (cacheKey domain ty) =
      some ⟨recs, t0 + min_ttl recs⟩ := by
    rw [hcache]
    exact cacheLookup_insert_self c (cacheKey domain ty) _
  refine ⟨by rw [hq, heq], hlook, ?_, ?_⟩
  · intro t1 w2 ht
    exact query_hit _ t1 domain ty w2 _ hlook ht
  · intro t2 w2 ht
    have hq2 : query (query c t0 domain ty w1).cache t2 domain ty w2 =
        queryMiss (query c t0 domain ty w1).cache t2 (cacheKey domain ty) ty w2 := by
      refine query_eq_miss _ t2 domain ty w2 ?_
      intro e he
      rw [hlook] at he
      cases he
      simpa using ht
    refine ⟨by rw [hq2]; exact queryMiss_sent _ t2 _ ty w2, ?_⟩
    intro recs2 hok2
    rw [hq2] at hok2 ⊢
    obtain ⟨resp2, hw2, hrc2, hrecs2, hne2, heq2⟩ :=
      queryMiss_ok_shape _ t2 (cacheKey domain ty) ty w2 recs2 hok2
    rw [heq2]
    exact cacheLookup_insert_self _ (cacheKey domain ty) _

/-- Witness for C5: an empty cache, a successful `A` reply at time 10 with
ttl 60, a hit at time 69, and a refresh at time 70. -/
theorem claim_C5_cache_single_round_trip_witness :
    (query [] 10 "x" .A (.ok (DnsResponse.mk 1 true 0 false false true true 0 []
        [DnsRecord.mk "x" .A 60 (.A (.v4 1 2 3 4))] [] []))).sent = 1 ∧
    query (query [] 10 "x" .A (.ok (DnsResponse.mk 1 true 0 false false true true 0 []
        [DnsRecord.mk "x" .A 60 (.A (.v4 1 2 3 4))] [] []))).cache 69 "x" .A
      (.error .ioError) =
      ⟨.ok [DnsRecord.mk "x" .A 60 (.A (.v4 1 2 3 4))],
       (query [] 10 "x" .A (.ok (DnsResponse.mk 1 true 0 false false true true 0 []
        [DnsRecord.mk "x" .A 60 (.A (.v4 1 2 3 4))] [] []))).cache, 0⟩ ∧
    (query (query [] 10 "x" .A (.ok (DnsResponse.mk 1 true 0 false false true true 0 []
        [DnsRecord.mk "x" .A 60 (.A (.v4 1 2 3 4))] [] []))).cache 70 "x" .A
      (.error .ioError)).sent = 1 := by
  have h := claim_C5_cache_single_round_trip [] 10 "x" .A
    (.ok (DnsResponse.mk 1 true 0 false false true true 0 []
      [DnsRecord.mk "x" .A 60 (.A (.v4 1 2 3 4))] [] []))
    [DnsRecord.mk "x" .A 60 (.A (.v4 1 2 3 4))] rfl (by rfl)
  refine ⟨h.1, ?_, ?_⟩
  · have := h.2.2.1 69 (.error .ioError) (by decide)
    simpa [min_ttl] using this
  · exact (h.2.2.2 70 (.error .ioError) (by decide)).1



theorem query_ok_member (c : Cache) (now : Nat) (domain : String) (ty : DnsRecordType)
    (w : Except QueryError DnsResponse) (recs : List DnsRecord)
    (hmiss : cacheLookup c (cacheKey domain ty) = none) (hw : wfWire w)
    (hok : (query c now domain ty w).result = .ok recs) :
    recs ≠ [] ∧ ∀ r ∈ recs, r.record_type = ty ∧ wfRecord r := by
  have hq : query c now domain ty w = queryMiss c now (cacheKey domain ty) ty w :=
    query_eq_miss c now domain ty w (by intro e he; rw [hmiss] at he; cases he)
  rw [hq] at hok
  obtain ⟨resp, hwr, hrc, hrecs, hne, heq⟩ :=
    queryMiss_ok_shape c now (cacheKey domain ty) ty w recs hok
  refine ⟨hne, ?_⟩
  intro r hr
  rw [hrecs] at hr
  obtain ⟨hmem, hty⟩ := List.mem_filter.mp hr
  exact ⟨by simpa using hty, hw resp hwr r hmem⟩

theorem query_error_cache (c : Cache) (now : Nat) (domain : String) (ty : DnsRecordType)
    (w : Except QueryError DnsResponse) (e : QueryError)
    (hmiss : cacheLookup c (cacheKey domain ty) = none)
    (herr : (query c now domain ty w).result = .error e) :
    (query c now domain ty w).cache = c := by
  have hq : query c now domain ty w = queryMiss c now (cacheKey domain ty) ty w :=
    query_eq_miss c now domain ty w (by intro e' he; rw [hmiss] at he; cases he)
  rw [hq] at herr ⊢
  exact (queryMiss_error_frame c now (cacheKey domain ty) ty w e herr).1

/-- Claim C6. -/
theorem claim_C6_resolve_ip_fallback (c : Cache) (now : Nat) (domain : String)
    (wA wAAAA : Except QueryError DnsResponse)
    (h1 : cacheLookup c (cacheKey domain .A) = none)
    (h2 : cacheLookup c (cacheKey domain .AAAA) = none)
    (hwA : wfWire wA) (hwAAAA : wfWire wAAAA) :
    (∀ recs, (query c now domain .A wA).result = .ok recs →
      ∃ r rest ip, recs = r :: rest ∧ r.data = .A ip ∧
        (resolve_ip c now domain wA wAAAA).1 = some (.ok ip)) ∧
    (∀ e recs2, (query c now domain .A wA).result = .error e →
      (query c now domain .AAAA wAAAA).result = .ok recs2 →
      ∃ r rest ip, recs2 = r :: rest ∧ r.data = .AAAA ip ∧
        (resolve_ip c now domain wA wAAAA).1 = some (.ok ip)) ∧
    (∀ e e2, (query c now domain .A wA).result = .error e →
      (query c now domain .AAAA wAAAA).result = .error e2 →
      (resolve_ip c now domain wA wAAAA).1 = some (.error .notFound)) := by
  refine ⟨?_, ?_, ?_⟩
  · intro recs hok
    obtain ⟨hne, hall⟩ := query_ok_member c now domain .A wA recs h1 hwA hok
    match hc : recs with
    | [] => exact absurd rfl hne
    | r :: rest =>
      obtain ⟨hty, hwf⟩ := hall r (by simp)
      obtain ⟨ip, hip⟩ := hwf.1 hty
      refine ⟨r, rest, ip, rfl, hip, ?_⟩
      simp only [resolve_ip]
      rw [hok]
      simp [hip]
  · intro e recs2 herr hok2
    have hcache : (query c now domain .A wA).cache = c :=
      query_error_cache c now domain .A wA e h1 herr
    obtain ⟨hne, hall⟩ := query_ok_member c now domain .AAAA wAAAA recs2 h2 hwAAAA hok2
    match hc : recs2 with
    | [] => exact absurd rfl hne
    | r :: rest =>
      obtain ⟨hty, hwf⟩ := hall r (by simp)
      obtain ⟨ip, hip⟩ := hwf.2 hty
      refine ⟨r, rest, ip, rfl, hip, ?_⟩
      simp only [resolve_ip]
      rw [herr, hcache, hok2]
      simp [hip]
  · intro e e2 herr herr2
    have hcache : (query c now domain .A wA).cache = c :=
      query_error_cache c now domain .A wA e h1 herr
    simp only [resolve_ip]
    rw [herr, hcache, herr2]



/-- Witness for C6: a reply set where both families resolve (IPv4 wins), one
where only `AAAA` resolves, and one where neither does. -/
theorem claim_C6_resolve_ip_fallback_witness :
    (resolve_ip [] 0 "x"
      (.ok (DnsResponse.mk 1 true 0 false false true true 0 []
        [DnsRecord.mk "x" .A 60 (.A (.v4 1 2 3 4))] [] []))
      (.ok (DnsResponse.mk 2 true 0 false false true true 0 []
        [DnsRecord.mk "x" .AAAA 60 (.AAAA (.v6 [32, 3512, 0, 0, 0, 0, 0, 1]))] [] []))).1 =
      some (.ok (IpAddr.v4 1 2 3 4)) ∧
    (resolve_ip [] 0 "x" (.error .ioError)
      (.ok (DnsResponse.mk 2 true 0 false false true true 0 []
        [DnsRecord.mk "x" .AAAA 60 (.AAAA (.v6 [32, 3512, 0, 0, 0, 0, 0, 1]))] [] []))).1 =
      some (.ok (IpAddr.v6 [32, 3512, 0, 0, 0, 0, 0, 1])) ∧
    (resolve_ip [] 0 "x" (.error .ioError) (.error .notFound)).1 =
      some (.error .notFound) := by
  have hwfA : wfWire (.ok (DnsResponse.mk 1 true 0 false false true true 0 []
      [DnsRecord.mk "x" .A 60 (.A (.v4 1 2 3 4))] [] [])) := by
    intro resp h r hr
    cases h
    simp at hr
    subst hr
    exact ⟨fun _ => ⟨_, rfl⟩, fun h => by simp at h⟩
  have hwfB : wfWire (.ok (DnsResponse.mk 2 true 0 false false true true 0 []
      [DnsRecord.mk "x" .AAAA 60 (.AAAA (.v6 [32, 3512, 0, 0, 0, 0, 0, 1]))] [] [])) := by
    intro resp h r hr
    cases h
    simp at hr
    subst hr
    exact ⟨fun h => by simp at h, fun _ => ⟨_, rfl⟩⟩
  have hwfE : wfWire (QueryError.ioError |> Except.error) := by
    intro resp h
    cases h
  have hwfE2 : wfWire (QueryError.notFound |> Except.error) := by
    intro resp h
    cases h
  refine ⟨?_, ?_, ?_⟩
  · obtain ⟨r, rest, ip, hcons, hip, hres⟩ :=
      (claim_C6_resolve_ip_fallback [] 0 "x" _ _ rfl rfl hwfA hwfB).1
        [DnsRecord.mk "x" .A 60 (.A (.v4 1 2 3 4))] rfl
    injection hcons with hr1 hr2
    subst hr1
    simp only [DnsRecord.mk.injEq] at hip ⊢
    simp at hip
    rw [hres, hip]
  · obtain ⟨r, rest, ip, hcons, hip, hres⟩ :=
      (claim_C6_resolve_ip_fallback [] 0 "x" _ _ rfl rfl hwfE hwfB).2.1
        .ioError [DnsRecord.mk "x" .AAAA 60 (.AAAA (.v6 [32, 3512, 0, 0, 0, 0, 0, 1]))] rfl rfl
    injection hcons with hr1 hr2
    subst hr1
    simp at hip
    rw [hres, hip]
  · exact (claim_C6_resolve_ip_fallback [] 0 "x" _ _ rfl rfl hwfE hwfE2).2.2
      .ioError .notFound rfl rfl

/-- Witness for C8: two keys at time 400 with `idle_timeout` 300 — key `a`
holds a stale idle entry and an equally old in-use entry, key `b` only a
stale idle entry; cleanup keeps exactly the in-use entry, drops key `b`, and
the counter books exactly the two removals. -/
theorem claim_C8_cleanup_exact_witness :
    lookupEntries (cleanup (ConnectionPoolInner.mk
        [(⟨"http", "a", 80⟩, [⟨1, 0, 0, false⟩, ⟨2, 0, 0, true⟩]),
         (⟨"http", "b", 80⟩, [⟨3, 0, 0, false⟩])] 300 100 3) 400).connections
      ⟨"http", "a", 80⟩ = [⟨2, 0, 0, true⟩] ∧
    containsKey (cleanup (ConnectionPoolInner.mk
        [(⟨"http", "a", 80⟩, [⟨1, 0, 0, false⟩, ⟨2, 0, 0, true⟩]),
         (⟨"http", "b", 80⟩, [⟨3, 0, 0, false⟩])] 300 100 3) 400).connections
      ⟨"http", "b", 80⟩ = false ∧
    (cleanup (ConnectionPoolInner.mk
        [(⟨"http", "a", 80⟩, [⟨1, 0, 0, false⟩, ⟨2, 0, 0, true⟩]),
         (⟨"http", "b", 80⟩, [⟨3, 0, 0, false⟩])] 300 100 3) 400).total_connections +
      removedCount (ConnectionPoolInner.mk
        [(⟨"http", "a", 80⟩, [⟨1, 0, 0, false⟩, ⟨2, 0, 0, true⟩]),
         (⟨"http", "b", 80⟩, [⟨3, 0, 0, false⟩])] 300 100 3) 400 = 3 := by
  have h := claim_C8_cleanup_exact (ConnectionPoolInner.mk
      [(⟨"http", "a", 80⟩, [⟨1, 0, 0, false⟩, ⟨2, 0, 0, true⟩]),
       (⟨"http", "b", 80⟩, [⟨3, 0, 0, false⟩])] 300 100 3) 400
    (by decide) (by simp [poolInvariant, sumLen])
  refine ⟨?_, ?_, h.2.2.2.2⟩
  · have h1 := h.1 ⟨"http", "a", 80⟩
    rw [h1]
    rfl
  · exact h.2.2.2.1 ⟨"http", "b", 80⟩ (by decide)

/-- Claim C10: `get_mut` is unconditionally `Some` of the wrapped stream and
`is_valid` is unconditionally `true`; neither takes any pool state, and
`close_all_connections` empties the table (so the guard's entry is gone)
without changing either answer. -/
theorem claim_C10_guard_accessors (g : ConnectionGuard) (s : ConnectionPoolInner) :
    g.get_mut = some g.stream ∧ g.is_valid = true ∧
    lookupEntries (close_all_connections s).connections g.key = [] :=
  ⟨rfl, rfl, rfl⟩



theorem bind_ok_inv {α β : Type} {x : ParseResult α} {f : α → ParseResult β} {b : β}
    (h : ParseResult.bind x f = .ok b) : ∃ a, x = .ok a ∧ f a = .ok b := by
  cases x with
  | ok a => exact ⟨a, rfl, h⟩
  | err => cases h
  | panic => cases h
  | diverge => cases h

theorem wfRecord_A (n : String) (t : Nat) (ip : IpAddr) :
    wfRecord (DnsRecord.mk n .A t (.A ip)) := by
  refine ⟨fun _ => ⟨ip, rfl⟩, fun h => by simp at h⟩

theorem wfRecord_AAAA (n : String) (t : Nat) (ip : IpAddr) :
    wfRecord (DnsRecord.mk n .AAAA t (.AAAA ip)) := by
  refine ⟨fun h => by simp at h, fun _ => ⟨ip, rfl⟩⟩

theorem wfRecord_other (n : String) (ty : DnsRecordType) (t : Nat) (d : DnsRecordData)
    (hA : ty ≠ .A) (hAAAA : ty ≠ .AAAA) : wfRecord (DnsRecord.mk n ty t d) :=
  ⟨fun h => absurd h hA, fun h => absurd h hAAAA⟩

/-- Every record built by `parseRecord` is type/data coherent: this is what
justifies the `wfWire` hypothesis of the `resolve_ip` claim for replies
decoded by this codec. -/
theorem parseRecord_wf (fuel : Nat) (data : List Nat) (offset : Nat)
    (rec : DnsRecord) (off : Nat)
    (h : parseRecord fuel data offset = .ok (rec, off)) : wfRecord rec := by
  unfold parseRecord at h
  simp only [ParseResult.monad_bind, ParseResult.monad_pure] at h
  obtain ⟨⟨name, o1⟩, -, h⟩ := bind_ok_inv h
  obtain ⟨rt, -, h⟩ := bind_ok_inv h
  obtain ⟨cls, -, h⟩ := bind_ok_inv h
  obtain ⟨ttl, -, h⟩ := bind_ok_inv h
  obtain ⟨rdl, -, h⟩ := bind_ok_inv h
  simp only at h
  cases hty : DnsRecordType.from_u16 rt with
  | none => rw [hty] at h; cases h
  | some ty =>
    rw [hty] at h
    cases ty with
    | A =>
      by_cases hrdl : rdl ≠ 4
      · rw [if_pos hrdl] at h; cases h
      · rw [if_neg hrdl] at h
        obtain ⟨a, -, h⟩ := bind_ok_inv h
        obtain ⟨b, -, h⟩ := bind_ok_inv h
        obtain ⟨c, -, h⟩ := bind_ok_inv h
        obtain ⟨d, -, h⟩ := bind_ok_inv h
        simp only [ParseResult.bind_ok] at h
        cases h
        exact wfRecord_A _ _ _
    | AAAA =>
      by_cases hrdl : rdl ≠ 16
      · rw [if_pos hrdl] at h; cases h
      · rw [if_neg hrdl] at h
        obtain ⟨g0, -, h⟩ := bind_ok_inv h
        obtain ⟨g1, -, h⟩ := bind_ok_inv h
        obtain ⟨g2, -, h⟩ := bind_ok_inv h
        obtain ⟨g3, -, h⟩ := bind_ok_inv h
        obtain ⟨g4, -, h⟩ := bind_ok_inv h
        obtain ⟨g5, -, h⟩ := bind_ok_inv h
        obtain ⟨g6, -, h⟩ := bind_ok_inv h
        obtain ⟨g7, -, h⟩ := bind_ok_inv h
        simp only [ParseResult.bind_ok] at h
        cases h
        exact wfRecord_AAAA _ _ _
    | CNAME =>
      obtain ⟨⟨cn, co⟩, -, h⟩ := bind_ok_inv h
      simp only [ParseResult.bind_ok] at h
      cases h
      exact wfRecord_other _ _ _ _ (fun hx => by simp at hx) (fun hx => by simp at hx)
    | NS =>
      obtain ⟨⟨nn, no'⟩, -, h⟩ := bind_ok_inv h
      simp only [ParseResult.bind_ok] at h
      cases h
      exact wfRecord_other _ _ _ _ (fun hx => by simp at hx) (fun hx => by simp at hx)
    | MX =>
      obtain ⟨pref, -, h⟩ := bind_ok_inv h
      obtain ⟨⟨ex, eo⟩, -, h⟩ := bind_ok_inv h
      simp only [ParseResult.bind_ok] at h
      cases h
      exact wfRecord_other _ _ _ _ (fun hx => by simp at hx) (fun hx => by simp at hx)

/-- Lift of `parseRecord_wf` to whole record sections. -/
theorem parse_records_wf (fuel : Nat) (data : List Nat) :
    ∀ (count offset : Nat) (recs : List DnsRecord) (off : Nat),
      parse_records fuel data offset count = .ok (recs, off) →
      ∀ r ∈ recs, wfRecord r
  | 0, offset, recs, off, h => by
    cases h
    intro r hr
    cases hr
  | count + 1, offset, recs, off, h => by
    simp only [parse_records] at h
    obtain ⟨⟨rec, o1⟩, hrec, h⟩ := bind_ok_inv h
    obtain ⟨⟨recs', o2⟩, hrest, h⟩ := bind_ok_inv h
    cases h
    intro r hr
    cases hr with
    | head => exact parseRecord_wf fuel data offset _ _ hrec
    | tail _ hmem => exact parse_records_wf fuel data count o1 recs' o2 hrest r hmem

end Biosurf
